import Mathlib

/-!
Shallow embedding of the vuh device-memory array subsystem
(`basicArray.hpp`, `hostArray.hpp`, `deviceArray.hpp`, `device.cpp`)
and proofs about its data-transfer and resource-lifetime behaviour.

Memory contents are modelled at byte granularity (a byte is a `Nat`
with value `< 256` wherever the code stores one); an element of a
typed array `T` occupies `sizeof T` consecutive bytes in little-endian
base-256 encoding.  Calls into the underlying Vulkan device are
modelled as a trace of `DevOp` values, so that claims about
which device calls happen (and in which order) can be stated.
-/

namespace Vuh

/-- Subset of `vk::MemoryPropertyFlags` bits used by the code:
device-local, host-visible, host-coherent, host-cached. -/
structure MemFlags where
  deviceLocal : Bool
  hostVisible : Bool
  hostCoherent : Bool
  hostCached : Bool
deriving DecidableEq, Repr

/-- Bitwise `&` of two flag sets (`properties & memProperties.memoryTypes[i].propertyFlags`). -/
def flagsAnd (a b : MemFlags) : MemFlags :=
  ⟨a.deviceLocal && b.deviceLocal, a.hostVisible && b.hostVisible,
   a.hostCoherent && b.hostCoherent, a.hostCached && b.hostCached⟩

/-- Source `BasicArray::isHostVisible`: `bool(_flags & vk::MemoryPropertyFlagBits::eHostVisible)`. -/
def isHostVisible (flags : MemFlags) : Bool := flags.hostVisible

/-- Source `BasicArray::isHostCoherent`: `bool(_flags & vk::MemoryPropertyFlagBits::eHostCoherent)`. -/
def isHostCoherent (flags : MemFlags) : Bool := flags.hostCoherent

/-- Calls made against the underlying `vk::Device`, as recorded by the embedding.
`flushRange`/`invalidateRange` carry the range offset and whether the range
size is `VK_WHOLE_SIZE`; `copyBufCmd` carries (size_bytes, src_offset, dst_offset). -/
inductive DevOp where
  | createBuffer : DevOp
  | destroyBuffer : DevOp
  | allocateMemory : DevOp
  | bindBufferMemory : DevOp
  | freeMemory : DevOp
  | mapMemory : DevOp
  | unmapMemory : DevOp
  | flushRange (offset : Nat) (wholeSize : Bool) : DevOp
  | invalidateRange (offset : Nat) (wholeSize : Bool) : DevOp
  | copyBufCmd (sizeBytes srcOff dstOff : Nat) : DevOp
deriving DecidableEq, Repr

/-- Source `BasicArray::flush_mapped_writes`: when the granted memory is not
host-coherent, builds `vk::MappedMemoryRange(_mem, 0, VK_WHOLE_SIZE)` and calls
`invalidateMappedMemoryRanges` on it; otherwise does nothing.  Returns the
device calls issued. -/
def flush_mapped_writes (flags : MemFlags) : List DevOp :=
  if !isHostCoherent flags then [DevOp.invalidateRange 0 true] else []

/-- Source `BasicArray::invalidate_mapped_cache`: when the granted memory is not
host-coherent, builds `vk::MappedMemoryRange(_mem, 0, VK_WHOLE_SIZE)` and calls
`flushMappedMemoryRanges` on it; otherwise does nothing.  Returns the device
calls issued. -/
def invalidate_mapped_cache (flags : MemFlags) : List DevOp :=
  if !isHostCoherent flags then [DevOp.flushRange 0 true] else []

/-- Source `Device::selectMemory` inner loop: scan memory types from index `i`
up, returning the first index whose bit is set in the buffer's
`memoryTypeBits` mask and whose property flags are a superset of the
requested `properties` (the source tests `(properties & flags_i) == properties`). -/
def selectMemoryAux (memTypes : List MemFlags) (i : Nat) (memoryTypeBits : Nat)
    (properties : MemFlags) : Option Nat :=
  match memTypes with
  | [] => none
  | f :: rest =>
    if memoryTypeBits.testBit i ∧ flagsAnd properties f = properties then some i
    else selectMemoryAux rest (i + 1) memoryTypeBits properties

/-- Source `Device::selectMemory`: first matching memory type id, `none` for `uint32_t(-1)`. -/
def selectMemory (memTypes : List MemFlags) (memoryTypeBits : Nat)
    (properties : MemFlags) : Option Nat :=
  selectMemoryAux memTypes 0 memoryTypeBits properties

/-- Source `Device::memoryProperties(id)`: property flags of the memory type
with the given id. -/
def memoryProperties (memTypes : List MemFlags) (id : Nat) : Option MemFlags :=
  memTypes.get? id

/-- Modelled from the spec: the `AllocDevice` allocator (its header is not part
of the sources at hand).  Per the §4.1 contract, `allocMemory` "must find a
memory type whose flags are a superset of `requested_property_flags` and whose
type-index bit is set in the buffer's memory-requirements bitmask, failing with
AllocationError if none exists", and `memoryProperties` reports the flags
actually obtained.  This composes the source's `Device::selectMemory` with
`Device::memoryProperties` and yields the granted flags stored in
`BasicArray::_flags`, or `none` for the AllocationError case. -/
def allocGrantedFlags (memTypes : List MemFlags) (memoryTypeBits : Nat)
    (requested : MemFlags) : Option MemFlags :=
  (selectMemory memTypes memoryTypeBits requested).bind
    (fun i => memoryProperties memTypes i)

/-- Queue-family state of `vuh::Device` relevant to queue selection. -/
structure DeviceQ where
  cmp_family_id : Nat
  tfr_family_id : Nat
deriving DecidableEq, Repr

/-- Source `Device::hasSeparateQueues`: `return _cmp_family_id == _tfr_family_id;`. -/
def hasSeparateQueues (d : DeviceQ) : Bool :=
  d.cmp_family_id == d.tfr_family_id

/-!
Byte-level memory model.  An element of type `T` with `sizeof(T) = es` is
stored as `es` consecutive bytes, little-endian base 256.  Device and host
memory contents are `List Nat` of bytes.
-/

/-- Little-endian base-256 encoding of a value into `es` bytes. -/
def encElem : Nat → Nat → List Nat
  | 0, _ => []
  | es + 1, v => v % 256 :: encElem es (v / 256)

/-- Little-endian base-256 decoding of a byte list. -/
def decElem : List Nat → Nat
  | [] => 0
  | b :: bs => b + 256 * decElem bs

/-- Encoding of a list of elements into a flat byte list, `es` bytes each. -/
def encodeList (es : Nat) (l : List Nat) : List Nat :=
  (l.map (encElem es)).flatten

/-- Decoding of `n` elements of `es` bytes each from the front of a byte list. -/
def decodeN (es : Nat) : Nat → List Nat → List Nat
  | 0, _ => []
  | n + 1, bytes => decElem (bytes.take es) :: decodeN es n (bytes.drop es)

/-- Modelled from the spec: the device-side copy routine `copyBuf`
(`arrayUtils.h`, not among the sources at hand).  Per the §4.5 contract,
`copy(device, srcBuffer, dstBuffer, size_bytes, srcOffset=0, dstOffset=0)`
records and synchronously executes a single buffer copy of `size_bytes` bytes
from byte offset `srcOffset` of the source to byte offset `dstOffset` of the
destination.  Effect on the destination contents: -/
def copyBuf (src dst : List Nat) (sizeBytes srcOff dstOff : Nat) : List Nat :=
  dst.take dstOff ++ (src.drop srcOff).take sizeBytes ++ dst.drop (dstOff + sizeBytes)

/-!
DeviceArray data-transfer model.  `DeviceArray<T, Alloc>` as far as its
data-exchange methods are concerned: element count `_size`, element byte width
`sizeof(T)`, granted memory property flags `_flags`, and the backing device
memory contents as bytes.  The mapped-pointer cache and the flush/invalidate
calls do not change memory contents, so the content-level model elides them
(they appear in the `DevOp`-trace model instead).
-/

structure DArr where
  n : Nat            -- `_size`, number of elements
  es : Nat           -- `sizeof(T)`
  flags : MemFlags   -- granted memory property flags (`BasicArray::_flags`)
  bytes : List Nat   -- device memory contents
deriving DecidableEq, Repr

/-- Source `size_bytes()` for arrays built by the element-count constructor:
`_size_bytes = n_elements * sizeof(T)`. -/
def DArr.sizeBytes (a : DArr) : Nat := a.n * a.es

/-- Source `DeviceArray::fromHost(begin, end)`: on the host-visible path,
`std::copy(begin, end, host_data())` writes the encoded range at the start of
the mapped memory (then flushes and optionally unmaps — contents unaffected);
otherwise a staging `HostArray<T, AllocDevice<HostCoherent>>(dev, begin, end)`
holding exactly the range is built and `copyBuf(dev, stage_buf, *this,
size_bytes())` is issued. -/
def fromHost (a : DArr) (h : List Nat) : DArr :=
  if isHostVisible a.flags then
    let w := encodeList a.es h
    { a with bytes := w ++ a.bytes.drop w.length }
  else
    let stage := encodeList a.es h
    { a with bytes := copyBuf stage a.bytes a.sizeBytes 0 0 }

/-- Source `DeviceArray::toHost(copy_to)`: on the host-visible path,
invalidates the mapped cache and `std::copy_n(copy_from, size(), copy_to)`;
otherwise a staging `HostArray<T, AllocDevice<HostCached>>(dev, size())` is
filled by `copyBuf(dev, *this, stage_buf, size_bytes())` and then copied out
element-wise.  Returns the elements delivered to the destination. -/
def toHost (a : DArr) : List Nat :=
  if isHostVisible a.flags then
    decodeN a.es a.n a.bytes
  else
    let stage := copyBuf a.bytes (List.replicate a.sizeBytes 0) a.sizeBytes 0 0
    decodeN a.es a.n stage

/-- Source `DeviceArray::fromHost(fun, offset, size_)`: returns without any
effect when `offset >= size()`; on the host-visible path calls
`fun(host_data() + offset)` (modelled as `fun` writing the element list `w`
there), flushes and optionally unmaps; otherwise builds a staging array of
`size_ ? size_ : size()` elements filled by `fun` from its start, computes
`offset_bytes = offset * sizeof(T)` and `size = size_bytes() - offset_bytes`
(replaced by `min(size_ * sizeof(T), stage_buf.size_bytes())` when
`size_ != 0`), and issues `copyBuf(dev, stage_buf, *this, size, 0, offset_bytes)`. -/
def fromHostFunOff (a : DArr) (w : List Nat) (offset size_ : Nat) : DArr :=
  if offset ≥ a.n then a
  else if isHostVisible a.flags then
    let enc := encodeList a.es w
    let pos := offset * a.es
    { a with bytes := a.bytes.take pos ++ enc ++ a.bytes.drop (pos + enc.length) }
  else
    let m := if size_ = 0 then a.n else size_
    let stage := encodeList a.es w ++ List.replicate (m * a.es - (encodeList a.es w).length) 0
    let offsetBytes := offset * a.es
    let sz := if size_ = 0 then a.sizeBytes - offsetBytes
              else min (size_ * a.es) (m * a.es)
    { a with bytes := copyBuf stage a.bytes sz 0 offsetBytes }

/-- Source `DeviceArray::toHost(fun, offset)`: returns without calling `fun`
when `offset >= size()` (modelled as `none`); on the host-visible path
invalidates and calls `fun(copy_from + offset)`; otherwise copies the whole
array into a staging array of `size()` elements via `copyBuf(dev, *this,
stage_buf, size_bytes())` and calls `fun(begin(stage_buf) + offset)`.  Returns
the elements `fun` is handed (from its pointer to the end of the array). -/
def toHostFunOff (a : DArr) (offset : Nat) : Option (List Nat) :=
  if offset ≥ a.n then none
  else if isHostVisible a.flags then
    some (decodeN a.es (a.n - offset) (a.bytes.drop (offset * a.es)))
  else
    let stage := copyBuf a.bytes (List.replicate a.sizeBytes 0) a.sizeBytes 0 0
    some (decodeN a.es (a.n - offset) (stage.drop (offset * a.es)))

/-- One buffer-to-buffer copy request as issued to `copyBuf`: byte size, source
byte offset, destination byte offset, and the byte capacity of the staging
buffer involved. -/
structure CopyCall where
  sizeBytes : Nat
  srcOff : Nat
  dstOff : Nat
  stageCapacity : Nat
deriving DecidableEq, Repr

/-- Source `DeviceArray::rangeToHost(offset_begin, offset_end, dst_begin)`: on
the host-visible path, `std::copy(copy_from + offset_begin, copy_from +
offset_end, dst_begin)`; otherwise a staging array of `offset_end -
offset_begin` elements is created and `copyBuf(dev, *this, stage_buf,
size_bytes(), offset_begin, 0u)` is issued (the source passes `size_bytes()`
and the raw element offset), then the whole staging array is copied out.
Returns the elements delivered and the copy request issued on the staged
path. -/
def rangeToHost (a : DArr) (offsetBegin offsetEnd : Nat) :
    List Nat × Option CopyCall :=
  if isHostVisible a.flags then
    (decodeN a.es (offsetEnd - offsetBegin) (a.bytes.drop (offsetBegin * a.es)), none)
  else
    let stageCap := (offsetEnd - offsetBegin) * a.es
    let call : CopyCall := ⟨a.sizeBytes, offsetBegin, 0, stageCap⟩
    let stage := copyBuf a.bytes (List.replicate stageCap 0)
        call.sizeBytes call.srcOff call.dstOff
    (decodeN a.es (offsetEnd - offsetBegin) stage, some call)

/-- Source `DeviceArray(device, n_elements, fun, ...)` (index-function
constructor): delegates to the uninitialized constructor, then unconditionally
builds a staging `HostArray<T, AllocDevice<HostCoherent>>(dev, n_elements)`,
writes `fun(i)` at every index through the staging iterator, and issues
`copyBuf(dev, stage_buffer, *this, size_bytes())` — there is no
host-visibility branch.  Returns the constructed array and the device copy
requests issued. -/
def deviceArrayFromFun (n es : Nat) (flags : MemFlags) (f : Nat → Nat) :
    DArr × List DevOp :=
  let uninit : DArr := ⟨n, es, flags, List.replicate (n * es) 0⟩
  let stage := encodeList es ((List.range n).map f)
  ({ uninit with bytes := copyBuf stage uninit.bytes uninit.sizeBytes 0 0 },
   [DevOp.copyBufCmd (n * es) 0 0])

/-!
Resource-handle model.  `DeviceArray` and `HostArray` as holders of Vulkan
handles: the `vk::Buffer` base handle (`none` = `VK_NULL_HANDLE`), the
`BasicArray` fields `_size_bytes`, `_mem`, `_flags`, and the derived-class
fields: cached mapped pointer (`ptr` resp. `_data`, modelled by whether it is
non-null) and element count `_size`.
-/

structure DevArrSt where
  buffer : Option Nat   -- the `vk::Buffer` base subobject, `none` = null handle
  size_bytes : Nat      -- `BasicArray::_size_bytes`
  mem : Nat             -- `BasicArray::_mem`
  flags : MemFlags      -- `BasicArray::_flags`
  ptr : Bool            -- `DeviceArray::ptr` is non-null
  nElems : Nat          -- `DeviceArray::_size`
deriving DecidableEq, Repr

structure HostArrSt where
  buffer : Option Nat   -- the `vk::Buffer` base subobject, `none` = null handle
  size_bytes : Nat
  mem : Nat
  flags : MemFlags
  data : Bool           -- `HostArray::_data` is non-null
  nElems : Nat
deriving DecidableEq, Repr

/-- Source `BasicArray::release`: frees memory then destroys the buffer, but
only if the buffer handle is non-null.  Device calls issued. -/
def releaseOps (buffer : Option Nat) : List DevOp :=
  if buffer.isSome then [DevOp.freeMemory, DevOp.destroyBuffer] else []

/-- Source `~DeviceArray` followed by the base `~BasicArray`: unmaps iff the
cached pointer is non-null, then `release()`.  Device calls issued by
destruction. -/
def destroyDeviceArray (a : DevArrSt) : List DevOp :=
  (if a.ptr then [DevOp.unmapMemory] else []) ++ releaseOps a.buffer

/-- Source `~HostArray` followed by the base `~BasicArray`: unmaps iff `_data`
is non-null, then `release()`.  Device calls issued by destruction. -/
def destroyHostArray (a : HostArrSt) : List DevOp :=
  (if a.data then [DevOp.unmapMemory] else []) ++ releaseOps a.buffer

/-- Source `DeviceArray(DeviceArray&& o)`: the new object copies every field of
`o` (`Base(std::move(o))` copies the base fields and nulls only `o`'s
`vk::Buffer` handle; then `ptr(o.ptr), _size(o._size)` and `o.ptr = nullptr`).
Returns (new object, moved-from object). -/
def moveCtorDeviceArray (o : DevArrSt) : DevArrSt × DevArrSt :=
  (o, { o with buffer := none, ptr := false })

/-- Source `DeviceArray::operator=(DeviceArray&& o)`: `this->swap(o)`, which
swaps the base subobjects (buffer handle, `_size_bytes`, `_mem`, `_flags`,
`_dev`) and the `ptr` and `_size` fields.  Returns (new `*this`, new `o`). -/
def moveAssignDeviceArray (self o : DevArrSt) : DevArrSt × DevArrSt :=
  (o, self)

/-- Source `BasicArray::BasicArray(device, size_bytes, properties, usage)` as a
sequence of device calls with failure injection: the buffer is created in the
initializer list; inside the `try`, `allocMemory` (`allocFails`), the
memory-property query (`propsFails`), and `bindBufferMemory` (`bindFails`) may
throw; the `catch` runs `release()` — the buffer handle is non-null there, so
memory is freed and the buffer destroyed — and rethrows.  Returns the
construction outcome and the device calls issued. -/
def basicArrayCtor (allocFails propsFails bindFails : Bool) :
    Except Unit Unit × List DevOp :=
  if allocFails then
    (Except.error (), [DevOp.createBuffer, DevOp.freeMemory, DevOp.destroyBuffer])
  else if propsFails then
    (Except.error (), [DevOp.createBuffer, DevOp.allocateMemory,
      DevOp.freeMemory, DevOp.destroyBuffer])
  else if bindFails then
    (Except.error (), [DevOp.createBuffer, DevOp.allocateMemory,
      DevOp.freeMemory, DevOp.destroyBuffer])
  else
    (Except.ok (), [DevOp.createBuffer, DevOp.allocateMemory, DevOp.bindBufferMemory])

/-- Concrete input for the `rangeToHost` evaluation: a non-host-visible
`DeviceArray<int32>` (4-byte elements) of 4 elements holding {10, 20, 30, 40}. -/
def dArrStaged4 : DArr :=
  ⟨4, 4, ⟨true, false, false, false⟩, encodeList 4 [10, 20, 30, 40]⟩

/-- Concrete input: same contents as `dArrStaged4` but granted host-visible
memory. -/
def dArrVisible4 : DArr :=
  ⟨4, 4, ⟨false, true, true, false⟩, encodeList 4 [10, 20, 30, 40]⟩

/-!
Helper lemmas about the byte encoding, the copy routine and memory selection.
-/

theorem encElem_length (es v : Nat) : (encElem es v).length = es := by
  induction es generalizing v with
  | zero => rfl
  | succ es ih => simp [encElem, ih]

theorem decElem_encElem (es v : Nat) (h : v < 256 ^ es) :
    decElem (encElem es v) = v := by
  induction es generalizing v with
  | zero =>
    interval_cases v
    rfl
  | succ es ih =>
    have hdiv : v / 256 < 256 ^ es := by
      rw [Nat.div_lt_iff_lt_mul (by norm_num)]
      calc v < 256 ^ (es + 1) := h
        _ = 256 ^ es * 256 := by ring
    simp only [encElem, decElem, ih _ hdiv]
    exact Nat.mod_add_div v 256

theorem encodeList_length (es : Nat) (l : List Nat) :
    (encodeList es l).length = l.length * es := by
  induction l with
  | nil => simp [encodeList]
  | cons h t ih =>
    simp only [encodeList, List.map_cons, List.flatten_cons, List.length_append,
      encElem_length, List.length_cons]
    rw [encodeList] at ih
    rw [ih]; ring

theorem decodeN_encodeList (es : Nat) (l : List Nat)
    (h : ∀ x ∈ l, x < 256 ^ es) :
    decodeN es l.length (encodeList es l) = l := by
  induction l with
  | nil => rfl
  | cons hd t ih =>
    have hlen : (encElem es hd).length = es := encElem_length es hd
    simp only [List.length_cons, decodeN, encodeList, List.map_cons, List.flatten_cons]
    rw [List.take_left' hlen, List.drop_left' hlen]
    rw [decElem_encElem es hd (h hd (by simp))]
    rw [show ((t.map (encElem es)).flatten) = encodeList es t from rfl,
      ih (fun x hx => h x (by simp [hx]))]

theorem copyBuf_full (src dst : List Nat) (L : Nat)
    (hs : src.length = L) (hd : dst.length = L) :
    copyBuf src dst L 0 0 = src := by
  simp only [copyBuf, List.take_zero, List.drop_zero, Nat.zero_add, List.nil_append]
  rw [← hs, List.take_length]
  rw [hs, ← hd, List.drop_length, List.append_nil]

theorem selectMemoryAux_spec (memTypes : List MemFlags) :
    ∀ (i memoryTypeBits : Nat) (properties : MemFlags) (j : Nat),
      selectMemoryAux memTypes i memoryTypeBits properties = some j →
      i ≤ j ∧ ∃ f, memTypes.get? (j - i) = some f ∧ flagsAnd properties f = properties := by
  induction memTypes with
  | nil => intro i bits props j h; simp [selectMemoryAux] at h
  | cons hd tl ih =>
    intro i bits props j h
    rw [selectMemoryAux] at h
    by_cases hc : bits.testBit i ∧ flagsAnd props hd = props
    · rw [if_pos hc] at h
      obtain rfl : i = j := by injection h
      exact ⟨le_refl _, hd, by simp, hc.2⟩
    · rw [if_neg hc] at h
      obtain ⟨hij, f, hget, hand⟩ := ih (i + 1) bits props j h
      refine ⟨by omega, f, ?_, hand⟩
      have hj : j - i = (j - (i + 1)) + 1 := by omega
      rw [hj]
      simpa using hget

/-- Surviving `flagsAnd` with the granted flags unchanged forces every
requested bit to be present in the granted flags. -/
theorem flagsAnd_superset (req g : MemFlags) (h : flagsAnd req g = req) :
    (req.deviceLocal = true → g.deviceLocal = true)
    ∧ (req.hostVisible = true → g.hostVisible = true)
    ∧ (req.hostCoherent = true → g.hostCoherent = true)
    ∧ (req.hostCached = true → g.hostCached = true) := by
  cases req; cases g
  simp only [flagsAnd, MemFlags.mk.injEq] at h
  obtain ⟨h1, h2, h3, h4⟩ := h
  refine ⟨?_, ?_, ?_, ?_⟩ <;> intro hr <;> simp_all

/-- On either path, `fromHost` with a host range of matching element count
replaces the device contents by the encoding of the range. -/
theorem fromHost_eq (n es : Nat) (flags : MemFlags) (bytes h : List Nat)
    (hlen : h.length = n) (hbytes : bytes.length = n * es) :
    fromHost ⟨n, es, flags, bytes⟩ h = ⟨n, es, flags, encodeList es h⟩ := by
  have hw : (encodeList es h).length = n * es := by rw [encodeList_length, hlen]
  cases hvb : isHostVisible flags with
  | false =>
    simp only [fromHost, hvb, Bool.false_eq_true, if_false]
    show DArr.mk n es flags (copyBuf (encodeList es h) bytes (n * es) 0 0) = _
    rw [copyBuf_full _ _ _ hw hbytes]
  | true =>
    simp only [fromHost, hvb, if_true]
    show DArr.mk n es flags
      (encodeList es h ++ bytes.drop (encodeList es h).length) = _
    rw [hw, ← hbytes, List.drop_length, List.append_nil]

/-- On either path, `toHost` of an array whose contents encode a list of
`size()` elements delivers that list. -/
theorem toHost_enc (n es : Nat) (flags : MemFlags) (l : List Nat)
    (hlen : l.length = n) (hvals : ∀ x ∈ l, x < 256 ^ es) :
    toHost ⟨n, es, flags, encodeList es l⟩ = l := by
  have hw : (encodeList es l).length = n * es := by rw [encodeList_length, hlen]
  cases hvb : isHostVisible flags with
  | false =>
    simp only [toHost, hvb, Bool.false_eq_true, if_false]
    show decodeN es n (copyBuf (encodeList es l) (List.replicate (n * es) 0) (n * es) 0 0) = l
    rw [copyBuf_full _ _ _ hw (by simp)]
    rw [← hlen, decodeN_encodeList es l hvals]
  | true =>
    simp only [toHost, hvb, if_true]
    show decodeN es n (encodeList es l) = l
    rw [← hlen, decodeN_encodeList es l hvals]

/-!
Claim theorems.
-/

/-- Claim C1: `A.fromHost(H)` followed by `A.toHost(H2)` into a fresh
destination yields `H2 = H` whenever the host range has `A`'s element count,
both when the granted memory is host-visible (direct mapped path) and when it
is not (staged path through a temporary HostArray and the device copy
routine). -/
theorem claim_C1_roundTrip (a : DArr) (h : List Nat)
    (hlen : h.length = a.n)
    (hvals : ∀ x ∈ h, x < 256 ^ a.es)
    (hbytes : a.bytes.length = a.sizeBytes) :
    toHost (fromHost a h) = h := by
  obtain ⟨n, es, flags, bytes⟩ := a
  rw [fromHost_eq n es flags bytes h hlen hbytes]
  exact toHost_enc n es flags h hlen hvals

theorem claim_C1_witness :
    toHost (fromHost ⟨2, 1, ⟨false, true, true, false⟩, [0, 0]⟩ [3, 4]) = [3, 4]
    ∧ toHost (fromHost ⟨2, 1, ⟨true, false, false, false⟩, [0, 0]⟩ [3, 4]) = [3, 4] :=
  ⟨claim_C1_roundTrip _ [3, 4] (by decide) (by decide) (by decide),
   claim_C1_roundTrip _ [3, 4] (by decide) (by decide) (by decide)⟩

/-- Claim C4: the offset-taking partial transfers with `offset >= size()` are
silent no-ops — `fromHost(fun, offset, size)` leaves the array unchanged and
`toHost(fun, offset)` never invokes the callback, so the destination is
untouched; neither is an error. -/
theorem claim_C4_offset_noop (a : DArr) (w : List Nat) (offset size_ : Nat)
    (hoff : a.n ≤ offset) :
    fromHostFunOff a w offset size_ = a ∧ toHostFunOff a offset = none := by
  constructor
  · rw [fromHostFunOff, if_pos hoff]
  · rw [toHostFunOff, if_pos hoff]

theorem claim_C4_witness :
    fromHostFunOff ⟨2, 1, ⟨true, false, false, false⟩, [5, 6]⟩ [9] 2 0
      = ⟨2, 1, ⟨true, false, false, false⟩, [5, 6]⟩
    ∧ toHostFunOff ⟨2, 1, ⟨true, false, false, false⟩, [5, 6]⟩ 2 = none :=
  claim_C4_offset_noop _ [9] 2 0 (by decide)

/-- Claim C5: the index-function constructor issues the staged device copy
unconditionally — its trace contains the `copyBuf` call whatever the granted
flags — and the constructed array reads back as `fun(i)` at every index. -/
theorem claim_C5_indexFunCtor (n es : Nat) (flags : MemFlags) (f : Nat → Nat)
    (hf : ∀ i, i < n → f i < 256 ^ es) :
    (deviceArrayFromFun n es flags f).2 = [DevOp.copyBufCmd (n * es) 0 0]
    ∧ toHost (deviceArrayFromFun n es flags f).1 = (List.range n).map f := by
  refine ⟨rfl, ?_⟩
  have hL : ((List.range n).map f).length = n := by simp
  have hvals : ∀ x ∈ (List.range n).map f, x < 256 ^ es := by
    intro x hx
    obtain ⟨i, hi, rfl⟩ := List.mem_map.mp hx
    exact hf i (List.mem_range.mp hi)
  have hw : (encodeList es ((List.range n).map f)).length = n * es := by
    rw [encodeList_length, hL]
  have hb : (deviceArrayFromFun n es flags f).1
      = ⟨n, es, flags, encodeList es ((List.range n).map f)⟩ := by
    show DArr.mk n es flags
      (copyBuf (encodeList es ((List.range n).map f))
        (List.replicate (n * es) 0) (n * es) 0 0) = _
    rw [copyBuf_full _ _ _ hw (by simp)]
  rw [hb]
  exact toHost_enc n es flags _ hL hvals

theorem claim_C5_witness :
    toHost (deviceArrayFromFun 8 4 ⟨true, false, false, false⟩ (fun i => i * i)).1
      = [0, 1, 4, 9, 16, 25, 36, 49]
    ∧ (deviceArrayFromFun 8 4 ⟨true, false, false, false⟩ (fun i => i * i)).2
      = [DevOp.copyBufCmd 32 0 0] := by
  have h := claim_C5_indexFunCtor 8 4 ⟨true, false, false, false⟩
    (fun i => i * i) (by decide)
  exact ⟨h.2.trans (by decide), h.1⟩

/-- Claim C6, code evaluated at a failing input: for a non-host-visible
`DeviceArray<int32>` (4-byte elements) with contents {10, 20, 30, 40},
`rangeToHost(1, 3, dst)` on the staged path issues the device copy with the
full `size_bytes() = 16` and the raw element offset 1 — not the 8-byte
sub-range at byte offset 4 the claim states — so the copy request exceeds the
8-byte staging capacity and the delivered elements are not {20, 30}; the
host-visible path does deliver {20, 30}. -/
theorem claim_C6_rangeToHost_staged_bug :
    (rangeToHost dArrStaged4 1 3).2 = some ⟨16, 1, 0, 8⟩
    ∧ (rangeToHost dArrStaged4 1 3).2 ≠ some ⟨(3 - 1) * 4, 1 * 4, 0, 8⟩
    ∧ CopyCall.stageCapacity ⟨16, 1, 0, 8⟩ < CopyCall.sizeBytes ⟨16, 1, 0, 8⟩
    ∧ (rangeToHost dArrStaged4 1 3).1 ≠ [20, 30]
    ∧ (rangeToHost dArrVisible4 1 3).1 = [20, 30] := by
  decide

/-- Claim C2, code evaluated at the failing input: on host-visible,
non-host-coherent memory, `flush_mapped_writes` issues a cache-invalidate
over the full allocation range — not the cache-flush the claim states —
while `invalidate_mapped_cache` issues a cache-flush; on coherent memory
both are no-ops as claimed.  The two Vulkan calls are swapped relative to
the functions' names and the claim. -/
theorem claim_C2_flush_calls_swapped :
    flush_mapped_writes ⟨true, true, false, false⟩ = [DevOp.invalidateRange 0 true]
    ∧ DevOp.flushRange 0 true ∉ flush_mapped_writes ⟨true, true, false, false⟩
    ∧ invalidate_mapped_cache ⟨true, true, false, false⟩ = [DevOp.flushRange 0 true]
    ∧ flush_mapped_writes ⟨false, true, true, false⟩ = []
    ∧ invalidate_mapped_cache ⟨false, true, true, false⟩ = [] := by
  decide

/-- Claim C3: whenever allocation succeeds, the granted memory property flags
are a superset of (or equal to) the requested flags, and an array that
requested the HostVisible property reports `isHostVisible() == true`. -/
theorem claim_C3_granted_superset (memTypes : List MemFlags) (bits : Nat)
    (req g : MemFlags) (h : allocGrantedFlags memTypes bits req = some g) :
    (req.deviceLocal = true → g.deviceLocal = true)
    ∧ (req.hostVisible = true → g.hostVisible = true)
    ∧ (req.hostCoherent = true → g.hostCoherent = true)
    ∧ (req.hostCached = true → g.hostCached = true)
    ∧ (req.hostVisible = true → isHostVisible g = true) := by
  unfold allocGrantedFlags at h
  obtain ⟨j, hj, hget⟩ := Option.bind_eq_some.mp h
  obtain ⟨-, f, hf, hand⟩ := selectMemoryAux_spec memTypes 0 bits req j hj
  rw [Nat.sub_zero] at hf
  unfold memoryProperties at hget
  rw [hf] at hget
  obtain rfl : f = g := by injection hget
  have hs := flagsAnd_superset req f hand
  exact ⟨hs.1, hs.2.1, hs.2.2.1, hs.2.2.2, fun hv => hs.2.1 hv⟩

theorem claim_C3_witness :
    (MemFlags.hostVisible ⟨false, true, true, false⟩ = true
      → isHostVisible ⟨false, true, true, false⟩ = true)
    ∧ isHostVisible ⟨false, true, true, false⟩ = true := by
  have h := claim_C3_granted_superset
    [⟨true, false, false, false⟩, ⟨false, true, true, false⟩] 3
    ⟨false, true, false, false⟩ ⟨false, true, true, false⟩ (by decide)
  exact ⟨h.2.2.2.2, h.2.2.2.2 rfl⟩

/-- Claim C7 as stated is false: after move-constructing from a DeviceArray
with 5 elements and a live buffer, the moved-from object is not in a zero-size
state — it has a null buffer handle but still reports 5 elements. -/
theorem claim_C7_counterexample :
    ¬ ((moveCtorDeviceArray ⟨some 7, 20, 3, ⟨true, false, false, false⟩, true, 5⟩).2.nElems = 0
       ∧ (moveCtorDeviceArray ⟨some 7, 20, 3, ⟨true, false, false, false⟩, true, 5⟩).2.buffer
          = none) := by
  decide

/-- Claim C7 amended: after move construction the source has a null buffer
handle and a null cached mapped pointer, and destroying it performs no device
calls, but its element count keeps its previous value rather than becoming
zero; move assignment `A2 = std::move(A1)` swaps the full states of the two
arrays (so `A1` is null/empty only if `A2` was). -/
theorem claim_C7_move_source_state (o a b : DevArrSt) :
    (moveCtorDeviceArray o).2.buffer = none
    ∧ (moveCtorDeviceArray o).2.ptr = false
    ∧ destroyDeviceArray (moveCtorDeviceArray o).2 = []
    ∧ (moveCtorDeviceArray o).2.nElems = o.nElems
    ∧ (moveCtorDeviceArray o).1 = o
    ∧ moveAssignDeviceArray a b = (b, a) := by
  simp [moveCtorDeviceArray, moveAssignDeviceArray, destroyDeviceArray, releaseOps]

/-- Claim C8: whenever a construction step after buffer creation fails
(memory allocation, property query, or memory binding), the construction
propagates the error and the already-created buffer is destroyed; the
destroy is the last device call before the rethrow, so no buffer handle is
leaked. -/
theorem claim_C8_no_buffer_leak (af pf bf : Bool)
    (h : af = true ∨ pf = true ∨ bf = true) :
    (basicArrayCtor af pf bf).1 = Except.error ()
    ∧ DevOp.destroyBuffer ∈ (basicArrayCtor af pf bf).2
    ∧ (basicArrayCtor af pf bf).2.getLast? = some DevOp.destroyBuffer := by
  cases af <;> cases pf <;> cases bf <;> simp_all [basicArrayCtor]

theorem claim_C8_witness :
    (basicArrayCtor true false false).1 = Except.error ()
    ∧ DevOp.destroyBuffer ∈ (basicArrayCtor true false false).2
    ∧ (basicArrayCtor true false false).2.getLast? = some DevOp.destroyBuffer :=
  claim_C8_no_buffer_leak true false false (Or.inl rfl)

/-- Claim C9: for DeviceArray and HostArray alike, destruction unmaps the
memory exactly when the cached mapped pointer is non-null, and the unmap
happens before the base class frees the allocation and destroys the buffer. -/
theorem claim_C9_unmap_before_free (d : DevArrSt) (h : HostArrSt) :
    (DevOp.unmapMemory ∈ destroyDeviceArray d ↔ d.ptr = true)
    ∧ (DevOp.unmapMemory ∈ destroyHostArray h ↔ h.data = true)
    ∧ (d.ptr = true → d.buffer.isSome = true →
        destroyDeviceArray d
          = [DevOp.unmapMemory, DevOp.freeMemory, DevOp.destroyBuffer])
    ∧ (h.data = true → h.buffer.isSome = true →
        destroyHostArray h
          = [DevOp.unmapMemory, DevOp.freeMemory, DevOp.destroyBuffer]) := by
  obtain ⟨b, sb, m, fl, p, ne⟩ := d
  obtain ⟨b', sb', m', fl', q, ne'⟩ := h
  cases p <;> cases q <;> cases b <;> cases b' <;>
    simp [destroyDeviceArray, destroyHostArray, releaseOps]

theorem claim_C9_witness :
    destroyDeviceArray ⟨some 1, 16, 2, ⟨true, false, false, false⟩, true, 4⟩
      = [DevOp.unmapMemory, DevOp.freeMemory, DevOp.destroyBuffer]
    ∧ destroyHostArray ⟨some 2, 8, 3, ⟨false, true, true, false⟩, true, 2⟩
      = [DevOp.unmapMemory, DevOp.freeMemory, DevOp.destroyBuffer] :=
  ⟨(claim_C9_unmap_before_free
      ⟨some 1, 16, 2, ⟨true, false, false, false⟩, true, 4⟩
      ⟨some 2, 8, 3, ⟨false, true, true, false⟩, true, 2⟩).2.2.1 rfl rfl,
   (claim_C9_unmap_before_free
      ⟨some 1, 16, 2, ⟨true, false, false, false⟩, true, 4⟩
      ⟨some 2, 8, 3, ⟨false, true, true, false⟩, true, 2⟩).2.2.2 rfl rfl⟩

/-- Claim C10: `Device::hasSeparateQueues` returns true if and only if the
compute queue family id equals the transfer queue family id (so it returns
false exactly when the device uses two distinct queue families). -/
theorem claim_C10_hasSeparateQueues (d : DeviceQ) :
    hasSeparateQueues d = true ↔ d.cmp_family_id = d.tfr_family_id := by
  simp [hasSeparateQueues]

theorem claim_C10_witness : hasSeparateQueues ⟨5, 5⟩ = true :=
  (claim_C10_hasSeparateQueues ⟨5, 5⟩).mpr rfl

end Vuh
